import Mathlib

/-!
Verification of the DRM framebuffer pixel extractor (kernel module in
`km_new/kernel.c`).

The C code is shallowly embedded: all machine integers in the module are
`uint32_t` (or fixed small constants), so arithmetic that the C compiler
performs in 32 bits is modelled on `Nat` with an explicit `% U32` at every
operation that can wrap.  Byte buffers are modelled as `List Nat` (one entry
per byte); writing through `List.set` and reading through `List.getD`/`get?`.
Kernel services that cannot be embedded (vmalloc success, SHMEM page walks,
DMA-buf mappings, ktime) are supplied as oracle inputs of a pipeline run:
an allocation is a boolean outcome, a backend is `Option (List Nat)` -- the
bytes it would yield, `none` when the backend does not apply (in the source:
no `filp` mapping / no importable dma-buf, or zero bytes copied).
-/

def U32 : Nat := 2 ^ 32

/-- MAX_FB_CAPTURE from kernel.c -/
def MAX_FB_CAPTURE : Nat := 5

/-- MAX_CAPTURE_SIZE from kernel.c: 3840 * 1080 * 4 -/
def MAX_CAPTURE_SIZE : Nat := 3840 * 1080 * 4

/-- errno values used by the module (returned negated, as in the source). -/
def EINVAL : Int := 22

def ENOMEM : Int := 12

def ENODATA : Int := 61

/-- fourcc_mod_code(INTEL, val) = ((u64)0x01 << 56) | (val & 0x00ffffffffffffff) -/
def fourcc_mod_code_INTEL (val : Nat) : Nat :=
  (1 <<< 56) ||| (val &&& 0xffffffffffffff)

def I915_FORMAT_MOD_X_TILED : Nat := fourcc_mod_code_INTEL 1

def I915_FORMAT_MOD_Y_TILED : Nat := fourcc_mod_code_INTEL 2

def I915_FORMAT_MOD_Yf_TILED : Nat := fourcc_mod_code_INTEL 3

/-- enum intel_tiling from kernel.c -/
inductive intel_tiling where
  | INTEL_TILING_NONE
  | INTEL_TILING_X
  | INTEL_TILING_Y
  | INTEL_TILING_YF
deriving DecidableEq

export intel_tiling (INTEL_TILING_NONE INTEL_TILING_X INTEL_TILING_Y INTEL_TILING_YF)

/-- INTEL_TILE_X_WIDTH -/
def INTEL_TILE_X_WIDTH : Nat := 512

/-- INTEL_TILE_X_HEIGHT -/
def INTEL_TILE_X_HEIGHT : Nat := 8

/-- INTEL_TILE_Y_WIDTH -/
def INTEL_TILE_Y_WIDTH : Nat := 128

/-- INTEL_TILE_Y_HEIGHT -/
def INTEL_TILE_Y_HEIGHT : Nat := 32

/-- The switch at the top of convert_tiled_to_linear: tile geometry
(tile_w, tile_h) per tiling mode, `none` meaning the -EINVAL default arm. -/
def tileDims : intel_tiling → Option (Nat × Nat)
  | INTEL_TILING_X => some (INTEL_TILE_X_WIDTH, INTEL_TILE_X_HEIGHT)
  | INTEL_TILING_Y => some (INTEL_TILE_Y_WIDTH, INTEL_TILE_Y_HEIGHT)
  | INTEL_TILING_YF => some (INTEL_TILE_Y_WIDTH, INTEL_TILE_Y_HEIGHT)
  | INTEL_TILING_NONE => none

/-- static inline tile_offset_x: (x & (tile_width - 1)) -/
def tile_offset_x (x tile_width : Nat) : Nat := x &&& (tile_width - 1)

/-- static inline tile_offset_y: (y & (tile_height - 1)) -/
def tile_offset_y (y tile_height : Nat) : Nat := y &&& (tile_height - 1)

/-- The src_offset computation of convert_tiled_to_linear for pixel (x, y),
with every uint32 operation wrapped.  bytes_per_pixel = 4. -/
def conv_src_offset (pitch tile_w tile_h x y : Nat) : Nat :=
  let byte_x := x * 4 % U32
  let tile_x := byte_x / tile_w
  let tile_y := y / tile_h
  let tiles_per_row := pitch / tile_w
  let tile_index := (tile_y * tiles_per_row % U32 + tile_x) % U32
  let in_tile_x := tile_offset_x byte_x tile_w
  let in_tile_y := tile_offset_y y tile_h
  let tile_size := tile_w * tile_h % U32
  ((tile_index * tile_size % U32 + in_tile_y * tile_w % U32) % U32 + in_tile_x) % U32

/-- The dst_offset computation of convert_tiled_to_linear:
y * width * bytes_per_pixel + x * bytes_per_pixel, wrapped per operation. -/
def conv_dst_offset (width x y : Nat) : Nat :=
  (y * width % U32 * 4 % U32 + x * 4 % U32) % U32

/-- One iteration of the innermost byte loop of convert_tiled_to_linear:
copy byte k of destination pixel (x, y) when both bounds checks pass,
otherwise leave dst untouched. -/
def copy_pixel_byte (src : List Nat) (width height pitch tile_w tile_h : Nat)
    (x y k : Nat) (dst : List Nat) : List Nat :=
  let src_offset := conv_src_offset pitch tile_w tile_h x y
  let dst_offset := conv_dst_offset width x y
  if (src_offset + k) % U32 < height * pitch % U32 ∧
      (dst_offset + k) % U32 < height * width % U32 * 4 % U32 then
    dst.set ((dst_offset + k) % U32) (src.getD ((src_offset + k) % U32) 0)
  else dst

/-- The pixel-by-pixel double loop of convert_tiled_to_linear, with the
4-byte inner loop. -/
def convert_loop (src : List Nat) (width height pitch tile_w tile_h : Nat)
    (dst : List Nat) : List Nat :=
  (List.range height).foldl (fun d y =>
    (List.range width).foldl (fun d2 x =>
      (List.range 4).foldl
        (fun d3 k => copy_pixel_byte src width height pitch tile_w tile_h x y k d3)
        d2) d) dst

/-- convert_tiled_to_linear from kernel.c.  The NULL-pointer checks on
src/dst are not representable (lists are always present); the unknown-tiling
default arm returns -EINVAL, modelled as `none`. -/
def convert_tiled_to_linear (src dst : List Nat) (width height pitch : Nat)
    (tiling : intel_tiling) : Option (List Nat) :=
  match tileDims tiling with
  | none => none
  | some (tile_w, tile_h) =>
      some (convert_loop src width height pitch tile_w tile_h dst)

/-- Access-checked variant of `copy_pixel_byte`: identical control flow, but
the byte read is a checked `List.get?` and the byte write demands an
in-range index, yielding `none` on any out-of-range access.  Used to state
that the converter never performs an out-of-range access. -/
def copy_pixel_byte_checked (src : List Nat) (width height pitch tile_w tile_h : Nat)
    (x y k : Nat) (dst : List Nat) : Option (List Nat) :=
  let src_offset := conv_src_offset pitch tile_w tile_h x y
  let dst_offset := conv_dst_offset width x y
  if (src_offset + k) % U32 < height * pitch % U32 ∧
      (dst_offset + k) % U32 < height * width % U32 * 4 % U32 then
    match src.get? ((src_offset + k) % U32) with
    | none => none
    | some v =>
        if (dst_offset + k) % U32 < dst.length then
          some (dst.set ((dst_offset + k) % U32) v)
        else none
  else some dst

/-- Access-checked variant of `convert_loop`. -/
def convert_loop_checked (src : List Nat) (width height pitch tile_w tile_h : Nat)
    (dst : List Nat) : Option (List Nat) :=
  (List.range height).foldlM (fun d y =>
    (List.range width).foldlM (fun d2 x =>
      (List.range 4).foldlM
        (fun d3 k => copy_pixel_byte_checked src width height pitch tile_w tile_h x y k d3)
        d2) d) dst

/-- The spec's src_offset formula (section 4.1 / claim C1), in exact
arithmetic: tile_index * tile_w * tile_h + in_tile_y * tile_w + in_tile_x
with tile_x = byte_x / tile_w, tile_y = y / tile_h,
tiles_per_row = source_pitch / tile_w. -/
def spec_src_offset (pitch tile_w tile_h x y : Nat) : Nat :=
  ((y / tile_h) * (pitch / tile_w) + x * 4 / tile_w) * (tile_w * tile_h) +
    (y % tile_h) * tile_w + x * 4 % tile_w

/-- The spec's dst_offset formula: y * width * 4 + x * 4, exact. -/
def spec_dst_offset (width x y : Nat) : Nat := y * width * 4 + x * 4

/-- detect_intel_tiling from kernel.c.  The `!fb` NULL check is not
representable; `!fb->modifier` (modifier == 0) returns INTEL_TILING_NONE
before any matching, then the switch matches the three Intel modifiers
exactly, and the default arm applies the pitch-alignment heuristic. -/
def detect_intel_tiling (modifier pitches0 : Nat) : intel_tiling :=
  if modifier = 0 then INTEL_TILING_NONE
  else if modifier = I915_FORMAT_MOD_X_TILED then INTEL_TILING_X
  else if modifier = I915_FORMAT_MOD_Y_TILED then INTEL_TILING_Y
  else if modifier = I915_FORMAT_MOD_Yf_TILED then INTEL_TILING_YF
  else if pitches0 % INTEL_TILE_X_WIDTH = 0 then INTEL_TILING_X
  else INTEL_TILING_NONE

/-- struct fb_pixel_data from kernel.c.  The `fb` and `dev` pointers are
opaque identifiers; `pixel_buffer` is `none` for NULL. -/
structure fb_pixel_data where
  fb : Nat
  dev : Nat
  pixel_buffer : Option (List Nat)
  buffer_size : Nat
  width : Nat
  height : Nat
  format : Nat
  pitch : Nat
  timestamp : Nat
  valid : Bool
  has_pixels : Bool
  is_detiled : Bool
  detected_tiling : intel_tiling
deriving DecidableEq

/-- memset(capture, 0, sizeof(*capture)): the all-zero record
(NULL buffer, tiling value 0 = INTEL_TILING_NONE). -/
def zero_fb_pixel_data : fb_pixel_data :=
  ⟨0, 0, none, 0, 0, 0, 0, 0, 0, false, false, false, INTEL_TILING_NONE⟩

instance : Inhabited fb_pixel_data := ⟨zero_fb_pixel_data⟩

/-- The module's global mutable state: captured_fbs[MAX_FB_CAPTURE],
capture_count, current_index. -/
structure captureState where
  captured_fbs : List fb_pixel_data
  capture_count : Nat
  current_index : Nat
deriving DecidableEq

/-- State after module init: zeroed array, both counters 0. -/
def initState : captureState :=
  ⟨List.replicate MAX_FB_CAPTURE zero_fb_pixel_data, 0, 0⟩

/-- Everything one pipeline run depends on: the intercepted framebuffer's
fields, plus oracles for the kernel services the run consumes
(allocation outcomes, backend page/dma data, the ktime timestamp). -/
structure runInput where
  fbId : Nat
  devId : Nat
  width : Nat
  height : Nat
  format : Nat
  pitch : Nat
  modifier : Nat
  now : Nat
  objPresent : Bool
  finalAllocOk : Bool
  scratchAllocOk : Bool
  shmem : Option (List Nat)
  dmabuf : Option (List Nat)
deriving DecidableEq

/-- memcpy of min(dst size, src size) bytes of src into the front of dst:
models the page-by-page SHMEM copy (which stops when the destination is
full or pages run out) and the DMA-buf memcpy of
min(dma_buf size, target size) bytes. -/
def memcpy_into (dst src : List Nat) : List Nat :=
  src.take dst.length ++ dst.drop src.length

/-- The detiling tail of a successful backend copy in extract_gem_pixels:
run convert_tiled_to_linear from the raw scratch buffer into
capture->pixel_buffer; on success (ret 0) set is_detiled. -/
def detile_into (raw : List Nat) (cap : fb_pixel_data) : Int × fb_pixel_data :=
  match cap.pixel_buffer with
  | none => (-EINVAL, cap)
  | some pb =>
      match convert_tiled_to_linear raw pb cap.width cap.height cap.pitch
          cap.detected_tiling with
      | some newpb =>
          (0, { cap with pixel_buffer := some newpb, is_detiled := true })
      | none => (-EINVAL, cap)

/-- extract_gem_pixels from kernel.c.  Control flow: when detiling is
needed, vmalloc a scratch buffer of height * pitch (uint32 product) bytes,
failing with -ENOMEM; then try the SHMEM backend, then the DMA-buf backend
(each modelled as an oracle `Option (List Nat)`, `some data` meaning the
backend applies and yields more than zero bytes); a backend copies into the
scratch buffer (detiling case, followed by the layout conversion) or
directly into pixel_buffer; with no applicable backend, -ENODATA. -/
def extract_gem_pixels (inp : runInput) (cap : fb_pixel_data) :
    Int × fb_pixel_data :=
  let needs_detiling := cap.detected_tiling ≠ INTEL_TILING_NONE
  if needs_detiling ∧ inp.scratchAllocOk = false then (-ENOMEM, cap)
  else
    let raw_buffer_size := cap.height * cap.pitch % U32
    let viaBackend : List Nat → Int × fb_pixel_data := fun data =>
      if needs_detiling then
        detile_into (memcpy_into (List.replicate raw_buffer_size 0) data) cap
      else
        (0, { cap with pixel_buffer := cap.pixel_buffer.map (memcpy_into · data) })
    match inp.shmem with
    | some data => viaBackend data
    | none =>
        match inp.dmabuf with
        | some data => viaBackend data
        | none => (-ENODATA, cap)

/-- capture_fb_pixels from kernel.c: clean the targeted circular slot
(vfree + memset), populate metadata, detect tiling, compute the capped
buffer size, allocate the linear buffer (-ENOMEM on failure, with the slot
already reset), extract (possibly detiling), commit the frame (valid in
both the pixel and the metadata-only outcome), advance the counters. -/
def capture_fb_pixels (inp : runInput) (st : captureState) :
    Int × captureState :=
  if inp.objPresent = false then (-EINVAL, st)
  else
    let idx := st.current_index
    let cap0 : fb_pixel_data :=
      { zero_fb_pixel_data with
        fb := inp.fbId
        dev := inp.devId
        width := inp.width
        height := inp.height
        format := inp.format
        pitch := inp.pitch
        timestamp := inp.now
        is_detiled := false
        detected_tiling := detect_intel_tiling inp.modifier inp.pitch }
    let expected0 := inp.height * inp.width % U32 * 4 % U32
    let expected_size :=
      if expected0 > MAX_CAPTURE_SIZE then MAX_CAPTURE_SIZE else expected0
    let cap1 := { cap0 with buffer_size := expected_size }
    if inp.finalAllocOk = false then
      (-ENOMEM, { st with captured_fbs := st.captured_fbs.set idx cap1 })
    else
      let cap2 := { cap1 with pixel_buffer := some (List.replicate expected_size 0) }
      let r := extract_gem_pixels inp cap2
      let cap4 :=
        if r.1 = 0 then { r.2 with has_pixels := true, valid := true }
        else { r.2 with has_pixels := false, valid := true }
      (0, { captured_fbs := st.captured_fbs.set idx cap4
            capture_count :=
              if st.capture_count < MAX_FB_CAPTURE then st.capture_count + 1
              else st.capture_count
            current_index := (st.current_index + 1) % MAX_FB_CAPTURE })

/-- The scan loop of drm_fb_raw_read: for (i = capture_count - 1; i >= 0;
i--) pick the first slot with valid && has_pixels. -/
def find_recent (fbs : List fb_pixel_data) : Nat → Option fb_pixel_data
  | 0 => none
  | n + 1 =>
      let c := fbs.getD n zero_fb_pixel_data
      if c.valid = true ∧ c.has_pixels = true then some c
      else find_recent fbs n

/-- drm_fb_raw_read from kernel.c, for one read at file position pos of
count bytes: -ENODATA when the scan finds no pixel-bearing frame (or its
buffer is NULL); 0 bytes at or past buffer_size (EOF); otherwise
min(count, buffer_size - pos) bytes from pixel_buffer + pos.  The
copy_to_user -EFAULT path (user memory) is not modelled. -/
def drm_fb_raw_read (st : captureState) (pos count : Nat) :
    Except Int (List Nat) :=
  match find_recent st.captured_fbs st.capture_count with
  | none => .error (-ENODATA)
  | some cap =>
      match cap.pixel_buffer with
      | none => .error (-ENODATA)
      | some pb =>
          if pos ≥ cap.buffer_size then .ok []
          else
            let to_copy := min count (cap.buffer_size - pos)
            .ok ((pb.drop pos).take to_copy)

/-- A sequence of pipeline runs applied to a state. -/
def runSeq (runs : List runInput) (st : captureState) : captureState :=
  runs.foldl (fun s inp => (capture_fb_pixels inp s).2) st

/-- Generic conditional indexed write: the shape of one converter byte step
(used to reason uniformly about the converter's nested loops). -/
def maskedSet {τ : Type} (c : τ → Prop) [DecidablePred c] (idx v : τ → Nat)
    (t : τ) (d : List Nat) : List Nat :=
  if c t then d.set (idx t) (v t) else d

/-- The iteration space of convert_tiled_to_linear, flattened in loop order:
(y, x, k) for y < height, x < width, k < 4. -/
def pixelBytes (height width : Nat) : List (Nat × Nat × Nat) :=
  (List.range height).flatMap fun y =>
    (List.range width).flatMap fun x =>
      (List.range 4).map fun k => (y, x, k)

/-- The exact (non-wrapped) destination byte index of an iteration-space
point: y * width * 4 + x * 4 + k. -/
def pixIdx (width : Nat) (t : Nat × Nat × Nat) : Nat :=
  t.1 * width * 4 + t.2.1 * 4 + t.2.2

/-- Index (0-based) of the run whose frame a slot holds after `len` runs:
the largest p < len with p % MAX_FB_CAPTURE = j. -/
def lastRunIdx (len j : Nat) : Nat :=
  if j < len % MAX_FB_CAPTURE then len / MAX_FB_CAPTURE * MAX_FB_CAPTURE + j
  else (len / MAX_FB_CAPTURE - 1) * MAX_FB_CAPTURE + j

instance : Inhabited runInput := ⟨⟨0, 0, 0, 0, 0, 0, 0, 0, false, false, false, none, none⟩⟩

/-- A pipeline run whose scratch allocation fails while the final
allocation succeeds, on an X-tiled (by modifier) framebuffer with a
readable SHMEM backend. -/
def C2input : runInput :=
  ⟨1, 1, 1, 1, 0, 512, I915_FORMAT_MOD_X_TILED, 7, true, true, false, some [1, 2, 3], none⟩

/-- A pipeline run on a 2^30 x 4 framebuffer: height * width * 4 = 2^34,
which the module computes in uint32 arithmetic. -/
def C7input : runInput :=
  ⟨1, 1, 2 ^ 30, 4, 0, 512, 0, 7, true, true, true, none, none⟩

/-- A small untiled pipeline run that succeeds with pixel data. -/
def smallRun (i : Nat) : runInput :=
  ⟨1000 + i, 1, 1, 1, 0, 4, 0, 100 + i, true, true, true, some [10 * i], none⟩

/-- A small untiled pipeline run with no applicable extraction backend. -/
def noBackendRun : runInput :=
  ⟨1, 1, 1, 1, 0, 4, 0, 7, true, true, true, none, none⟩

/-- A run whose final pixel-buffer allocation fails. -/
def allocFailRun : runInput :=
  ⟨1, 1, 1, 1, 0, 4, 0, 7, true, false, true, some [3], none⟩

def convGuard (width height pitch tile_w tile_h : Nat) (t : Nat × Nat × Nat) : Prop :=
  (conv_src_offset pitch tile_w tile_h t.2.1 t.1 + t.2.2) % U32 < height * pitch % U32 ∧
    (conv_dst_offset width t.2.1 t.1 + t.2.2) % U32 < height * width % U32 * 4 % U32

instance convGuard_dec (width height pitch tile_w tile_h : Nat) :
    DecidablePred (convGuard width height pitch tile_w tile_h) := fun t => by
  unfold convGuard
  infer_instance

def convIdx (width : Nat) (t : Nat × Nat × Nat) : Nat :=
  (conv_dst_offset width t.2.1 t.1 + t.2.2) % U32

def convVal (src : List Nat) (pitch tile_w tile_h : Nat) (t : Nat × Nat × Nat) : Nat :=
  src.getD ((conv_src_offset pitch tile_w tile_h t.2.1 t.1 + t.2.2) % U32) 0

def fiveRuns : List runInput := (List.range 5).map fun i => smallRun (i + 1)

def sixRuns : List runInput := (List.range 6).map fun i => smallRun (i + 1)

def oneRunState : captureState := (capture_fb_pixels (smallRun 1) initState).2

def oneRunCap : fb_pixel_data :=
  ⟨1001, 1, some [10, 0, 0, 0], 4, 1, 1, 0, 4, 101, true, true, false, INTEL_TILING_NONE⟩

instance exceptDecEq : DecidableEq (Except Int (List Nat)) := fun a b =>
  match a, b with
  | .error e, .error f =>
      if h : e = f then .isTrue (by rw [h]) else .isFalse (by intro hc; cases hc; exact h rfl)
  | .ok u, .ok v =>
      if h : u = v then .isTrue (by rw [h]) else .isFalse (by intro hc; cases hc; exact h rfl)
  | .error _, .ok _ => .isFalse (by intro hc; cases hc)
  | .ok _, .error _ => .isFalse (by intro hc; cases hc)


lemma land_two_pow_sub_one (x n : Nat) : x &&& (2 ^ n - 1) = x % 2 ^ n := by
  apply Nat.eq_of_testBit_eq
  intro j
  simp [Nat.testBit_and, Nat.testBit_mod_two_pow, Nat.testBit_two_pow_sub_one, Bool.and_comm]

lemma maskedSet_length {τ : Type} (c : τ → Prop) [DecidablePred c] (idx v : τ → Nat)
    (t : τ) (d : List Nat) : (maskedSet c idx v t d).length = d.length := by
  unfold maskedSet
  split <;> simp

lemma foldl_maskedSet_getD_of_not_written {τ : Type} (c : τ → Prop) [DecidablePred c]
    (idx v : τ → Nat) (l : List τ) (d : List Nat) (j : Nat)
    (h : ∀ t ∈ l, c t → idx t ≠ j) :
    (l.foldl (fun d t => maskedSet c idx v t d) d).getD j 0 = d.getD j 0 := by
  induction l generalizing d with
  | nil => rfl
  | cons a l ih =>
    simp only [List.foldl_cons]
    rw [ih _ (fun t ht hc => h t (List.mem_cons_of_mem _ ht) hc)]
    unfold maskedSet
    split
    case isTrue hc =>
      have hne := h a (List.mem_cons_self a l) hc
      simp [List.getD_eq_getElem?_getD, List.getElem?_set_ne hne]
    case isFalse _ => rfl

lemma foldl_maskedSet_getD_of_written {τ : Type} (c : τ → Prop) [DecidablePred c]
    (idx v : τ → Nat) (l : List τ)
    (hp : l.Pairwise (fun a b => idx a ≠ idx b)) (t : τ) (ht : t ∈ l) (hc : c t)
    (d : List Nat) (hlt : idx t < d.length) :
    (l.foldl (fun d t => maskedSet c idx v t d) d).getD (idx t) 0 = v t := by
  induction l generalizing d with
  | nil => cases ht
  | cons a l ih =>
    simp only [List.foldl_cons]
    rcases List.mem_cons.mp ht with h | h
    · subst h
      have hne : ∀ b ∈ l, c b → idx b ≠ idx t := by
        intro b hb _
        exact ((List.pairwise_cons.mp hp).1 b hb).symm
      rw [foldl_maskedSet_getD_of_not_written c idx v l _ _ hne]
      unfold maskedSet
      rw [if_pos hc]
      simp [List.getD_eq_getElem?_getD, List.getElem?_set_eq_of_lt _ hlt]
    · exact ih (List.Pairwise.of_cons hp) h _ (by rw [maskedSet_length]; exact hlt)

lemma foldl_flatMap {α β γ : Type} (l : List α) (g : α → List β) (f : γ → β → γ) (a : γ) :
    (l.flatMap g).foldl f a = l.foldl (fun a x => (g x).foldl f a) a := by
  induction l generalizing a with
  | nil => rfl
  | cons x l ih => simp [List.flatMap_cons, List.foldl_append, ih]

lemma convert_loop_eq_foldl (src : List Nat) (width height pitch tile_w tile_h : Nat)
    (dst : List Nat) :
    convert_loop src width height pitch tile_w tile_h dst =
      (pixelBytes height width).foldl
        (fun d t => copy_pixel_byte src width height pitch tile_w tile_h t.2.1 t.1 t.2.2 d)
        dst := by
  unfold convert_loop pixelBytes
  simp only [foldl_flatMap, List.foldl_map]



lemma range_flatMap_range' (m : Nat) : ∀ (n s : Nat),
    (List.range n).flatMap (fun i => List.range' (s + i * m) m) = List.range' s (n * m) := by
  intro n
  induction n with
  | zero => intro s; simp
  | succ n ih =>
    intro s
    rw [List.range_succ, List.flatMap_append, ih]
    simp only [List.flatMap_cons, List.flatMap_nil, List.append_nil]
    have h := List.range'_append s (n * m) m 1
    simp only [one_mul, Nat.mul_one] at h
    rw [h]
    congr 1
    ring

lemma map_add_range (s n : Nat) : (List.range n).map (fun k => s + k) = List.range' s n := by
  rw [List.range'_eq_map_range]


lemma pixelBytes_map_pixIdx (h w : Nat) :
    (pixelBytes h w).map (pixIdx w) = List.range (h * w * 4) := by
  unfold pixelBytes pixIdx
  rw [List.map_flatMap]
  have inner1 : ∀ y : Nat,
      (List.map (fun t : Nat × Nat × Nat => t.1 * w * 4 + t.2.1 * 4 + t.2.2)
        ((List.range w).flatMap fun x => (List.range 4).map fun k => (y, x, k))) =
      List.range' (y * (w * 4)) (w * 4) := by
    intro y
    rw [List.map_flatMap]
    have inner2 : ∀ x : Nat,
        (List.map (fun t : Nat × Nat × Nat => t.1 * w * 4 + t.2.1 * 4 + t.2.2)
          ((List.range 4).map fun k => (y, x, k))) =
        List.range' (y * (w * 4) + x * 4) 4 := by
      intro x
      rw [List.map_map, ← map_add_range]
      apply List.map_congr_left
      intro k _
      simp only [Function.comp_apply]
      ring
    calc ((List.range w).flatMap fun x =>
            List.map (fun t : Nat × Nat × Nat => t.1 * w * 4 + t.2.1 * 4 + t.2.2)
              ((List.range 4).map fun k => (y, x, k)))
        = (List.range w).flatMap fun x => List.range' (y * (w * 4) + x * 4) 4 := by
          congr 1
          funext x
          exact inner2 x
      _ = List.range' (y * (w * 4)) (w * 4) := range_flatMap_range' 4 w (y * (w * 4))
  calc ((List.range h).flatMap fun y =>
          List.map (fun t : Nat × Nat × Nat => t.1 * w * 4 + t.2.1 * 4 + t.2.2)
            ((List.range w).flatMap fun x => (List.range 4).map fun k => (y, x, k)))
      = (List.range h).flatMap fun y => List.range' (0 + y * (w * 4)) (w * 4) := by
        congr 1
        funext y
        rw [inner1 y, Nat.zero_add]
    _ = List.range' 0 (h * (w * 4)) := range_flatMap_range' (w * 4) h 0
    _ = List.range (h * w * 4) := by
        rw [← List.range_eq_range']
        congr 1
        ring

lemma pixelBytes_pairwise_pixIdx (h w : Nat) :
    (pixelBytes h w).Pairwise (fun a b => pixIdx w a ≠ pixIdx w b) := by
  have hn : (List.range (h * w * 4)).Nodup := List.nodup_range _
  rw [← pixelBytes_map_pixIdx h w] at hn
  exact List.pairwise_map.mp hn

lemma mem_pixelBytes {h w y x k : Nat} (hy : y < h) (hx : x < w) (hk : k < 4) :
    (y, x, k) ∈ pixelBytes h w := by
  unfold pixelBytes
  refine List.mem_flatMap.mpr ⟨y, List.mem_range.mpr hy, ?_⟩
  refine List.mem_flatMap.mpr ⟨x, List.mem_range.mpr hx, ?_⟩
  exact List.mem_map.mpr ⟨k, List.mem_range.mpr hk, rfl⟩

lemma pixelBytes_mem_bounds {h w : Nat} {t : Nat × Nat × Nat} (ht : t ∈ pixelBytes h w) :
    t.1 < h ∧ t.2.1 < w ∧ t.2.2 < 4 := by
  unfold pixelBytes at ht
  rcases List.mem_flatMap.mp ht with ⟨y, hy, ht⟩
  rcases List.mem_flatMap.mp ht with ⟨x, hx, ht⟩
  rcases List.mem_map.mp ht with ⟨k, hk, rfl⟩
  exact ⟨List.mem_range.mp hy, List.mem_range.mp hx, List.mem_range.mp hk⟩

lemma spec_dst_offset_bound {w h x y k : Nat} (hy : y < h) (hx : x < w) (hk : k < 4) :
    y * w * 4 + x * 4 + k < h * w * 4 := by
  have h1 : (y * w + x + 1) * 4 ≤ (h * w) * 4 := by
    apply Nat.mul_le_mul_right
    calc y * w + x + 1 ≤ y * w + w := by omega
      _ = (y + 1) * w := by ring
      _ ≤ h * w := Nat.mul_le_mul_right _ hy
  calc y * w * 4 + x * 4 + k < (y * w + x + 1) * 4 := by ring_nf; omega
    _ ≤ h * w * 4 := by rw [Nat.mul_assoc] at h1 ⊢; exact h1

lemma conv_dst_offset_eq {w h x y : Nat} (hW : h * w * 4 < U32) (hy : y < h) (hx : x < w) :
    conv_dst_offset w x y = y * w * 4 + x * 4 := by
  have hb : y * w * 4 + x * 4 + 0 < h * w * 4 := spec_dst_offset_bound hy hx (by omega)
  have h1 : y * w < U32 := by
    have : y * w ≤ y * w * 4 := Nat.le_mul_of_pos_right _ (by omega)
    omega
  unfold conv_dst_offset
  rw [Nat.mod_eq_of_lt h1]
  have h2 : y * w * 4 < U32 := by omega
  rw [Nat.mod_eq_of_lt h2]
  have h3 : x * 4 < U32 := by omega
  rw [Nat.mod_eq_of_lt h3]
  exact Nat.mod_eq_of_lt (by omega)

lemma conv_src_offset_eq {pitch x y a b : Nat}
    (hx4 : x * 4 < U32) (harea : 2 ^ a * 2 ^ b < U32)
    (hspec : spec_src_offset pitch (2 ^ a) (2 ^ b) x y < U32) :
    conv_src_offset pitch (2 ^ a) (2 ^ b) x y = spec_src_offset pitch (2 ^ a) (2 ^ b) x y := by
  unfold conv_src_offset spec_src_offset tile_offset_x tile_offset_y
  unfold spec_src_offset at hspec
  dsimp only
  rw [Nat.mod_eq_of_lt hx4, land_two_pow_sub_one (x * 4) a, land_two_pow_sub_one y b,
    Nat.mod_eq_of_lt harea]
  have hApos : 0 < 2 ^ a * 2 ^ b :=
    Nat.mul_pos (Nat.pos_pow_of_pos a (by omega)) (Nat.pos_pow_of_pos b (by omega))
  have h1 : y / 2 ^ b * (pitch / 2 ^ a) + x * 4 / 2 ^ a ≤
      (y / 2 ^ b * (pitch / 2 ^ a) + x * 4 / 2 ^ a) * (2 ^ a * 2 ^ b) :=
    Nat.le_mul_of_pos_right _ hApos
  have hPle : (y / 2 ^ b * (pitch / 2 ^ a) + x * 4 / 2 ^ a) * (2 ^ a * 2 ^ b) ≤
      (y / 2 ^ b * (pitch / 2 ^ a) + x * 4 / 2 ^ a) * (2 ^ a * 2 ^ b) +
        y % 2 ^ b * 2 ^ a + x * 4 % 2 ^ a :=
    le_trans (Nat.le_add_right _ _) (Nat.le_add_right _ _)
  have hPlt : (y / 2 ^ b * (pitch / 2 ^ a) + x * 4 / 2 ^ a) * (2 ^ a * 2 ^ b) < U32 :=
    lt_of_le_of_lt hPle hspec
  have hABTlt : y / 2 ^ b * (pitch / 2 ^ a) + x * 4 / 2 ^ a < U32 := lt_of_le_of_lt h1 hPlt
  have hABlt : y / 2 ^ b * (pitch / 2 ^ a) < U32 :=
    lt_of_le_of_lt (Nat.le_add_right _ _) hABTlt
  rw [Nat.mod_eq_of_lt hABlt, Nat.mod_eq_of_lt hABTlt, Nat.mod_eq_of_lt hPlt]
  have hQlt : y % 2 ^ b * 2 ^ a < U32 :=
    lt_of_le_of_lt (le_trans (Nat.le_add_left _ _) (Nat.le_add_right _ _)) hspec
  rw [Nat.mod_eq_of_lt hQlt]
  have hPQlt : (y / 2 ^ b * (pitch / 2 ^ a) + x * 4 / 2 ^ a) * (2 ^ a * 2 ^ b) +
      y % 2 ^ b * 2 ^ a < U32 :=
    lt_of_le_of_lt (Nat.le_add_right _ _) hspec
  rw [Nat.mod_eq_of_lt hPQlt]
  exact Nat.mod_eq_of_lt hspec

lemma copy_pixel_byte_eq_maskedSet (src : List Nat) (width height pitch tile_w tile_h x y k : Nat)
    (d : List Nat) :
    copy_pixel_byte src width height pitch tile_w tile_h x y k d =
      maskedSet (convGuard width height pitch tile_w tile_h) (convIdx width)
        (convVal src pitch tile_w tile_h) (y, x, k) d := rfl

lemma tileDims_pow {tiling : intel_tiling} {tw th : Nat} (h : tileDims tiling = some (tw, th)) :
    ∃ a b : Nat, tw = 2 ^ a ∧ th = 2 ^ b ∧ tw * th = 4096 := by
  cases tiling <;>
    simp [tileDims, INTEL_TILE_X_WIDTH, INTEL_TILE_X_HEIGHT,
      INTEL_TILE_Y_WIDTH, INTEL_TILE_Y_HEIGHT] at h
  · obtain ⟨rfl, rfl⟩ := h
    exact ⟨9, 3, by norm_num, by norm_num, by norm_num⟩
  · obtain ⟨rfl, rfl⟩ := h
    exact ⟨7, 5, by norm_num, by norm_num, by norm_num⟩
  · obtain ⟨rfl, rfl⟩ := h
    exact ⟨7, 5, by norm_num, by norm_num, by norm_num⟩

/-- C1: for every tiled-to-linear conversion with tiling mode X, Y or Yf and
every destination pixel (x, y) in range whose source and destination offsets
(per the spec formulas, with the geometry of `tileDims`) are in bounds, the
Layout Converter succeeds and copies the 4 bytes src[src_offset .. src_offset+4)
to dst[dst_offset .. dst_offset+4), where dst_offset = y*width*4 + x*4.  The
side conditions express that the buffers have their nominal sizes
height*source_pitch and height*width*4 and that those sizes fit in uint32. -/
theorem C1_layout_converter (src dst : List Nat) (width height pitch : Nat)
    (tiling : intel_tiling) (tw th : Nat) (htd : tileDims tiling = some (tw, th))
    (x y : Nat) (hx : x < width) (hy : y < height)
    (hsb : spec_src_offset pitch tw th x y + 3 < height * pitch)
    (hdb : spec_dst_offset width x y + 3 < height * width * 4)
    (hsl : src.length = height * pitch) (hdl : dst.length = height * width * 4)
    (hP : height * pitch < U32) (hW : height * width * 4 < U32) :
    convert_tiled_to_linear src dst width height pitch tiling =
      some (convert_loop src width height pitch tw th dst) ∧
    ∀ k, k < 4 →
      (convert_loop src width height pitch tw th dst).getD (spec_dst_offset width x y + k) 0 =
        src.getD (spec_src_offset pitch tw th x y + k) 0 := by
  obtain ⟨a, b, hta, htb, harea4096⟩ := tileDims_pow htd
  subst hta htb
  constructor
  · unfold convert_tiled_to_linear
    rw [htd]
  intro k hk
  -- the wrapped code offsets agree with the exact spec offsets at (x, y)
  have hdbound : y * width * 4 + x * 4 + k < height * width * 4 :=
    spec_dst_offset_bound hy hx hk
  have hdeq : conv_dst_offset width x y = y * width * 4 + x * 4 :=
    conv_dst_offset_eq hW hy hx
  have hx4 : x * 4 < U32 := by
    unfold spec_dst_offset at hdb
    omega
  have hseq : conv_src_offset pitch (2 ^ a) (2 ^ b) x y =
      spec_src_offset pitch (2 ^ a) (2 ^ b) x y :=
    conv_src_offset_eq hx4 (by rw [harea4096]; unfold U32; norm_num) (by omega)
  -- pairwise distinctness of the destination indices over the whole loop
  have hmapeq : (pixelBytes height width).map (convIdx width) =
      (pixelBytes height width).map (pixIdx width) := by
    apply List.map_congr_left
    intro t ht
    obtain ⟨h1, h2, h3⟩ := pixelBytes_mem_bounds ht
    unfold convIdx pixIdx
    rw [conv_dst_offset_eq hW h1 h2]
    exact Nat.mod_eq_of_lt (lt_trans (spec_dst_offset_bound h1 h2 h3) (by omega)) |>.trans rfl
  have hpair : (pixelBytes height width).Pairwise
      (fun s t => convIdx width s ≠ convIdx width t) := by
    apply List.pairwise_map.mp
    show ((pixelBytes height width).map (convIdx width)).Nodup
    rw [hmapeq, pixelBytes_map_pixIdx]
    exact List.nodup_range _
  -- this pixel byte is actually copied: both guards hold
  have hwmod : height * width % U32 = height * width := by
    have : height * width ≤ height * width * 4 := Nat.le_mul_of_pos_right _ (by omega)
    exact Nat.mod_eq_of_lt (by omega)
  have hguard : convGuard width height pitch (2 ^ a) (2 ^ b) (y, x, k) := by
    unfold convGuard
    dsimp only
    rw [hseq, hdeq, Nat.mod_eq_of_lt hP, hwmod, Nat.mod_eq_of_lt hW]
    constructor
    · rw [Nat.mod_eq_of_lt (by omega)]
      omega
    · rw [Nat.mod_eq_of_lt (by omega)]
      omega
  have hidxval : convIdx width (y, x, k) = spec_dst_offset width x y + k := by
    unfold convIdx spec_dst_offset
    dsimp only
    rw [hdeq]
    exact Nat.mod_eq_of_lt (by omega)
  have hvval : convVal src pitch (2 ^ a) (2 ^ b) (y, x, k) =
      src.getD (spec_src_offset pitch (2 ^ a) (2 ^ b) x y + k) 0 := by
    unfold convVal
    dsimp only
    rw [hseq, Nat.mod_eq_of_lt (by omega)]
  have hlt : convIdx width (y, x, k) < dst.length := by
    rw [hidxval, hdl]
    unfold spec_dst_offset
    omega
  have main := foldl_maskedSet_getD_of_written
    (convGuard width height pitch (2 ^ a) (2 ^ b)) (convIdx width)
    (convVal src pitch (2 ^ a) (2 ^ b)) (pixelBytes height width) hpair
    (y, x, k) (mem_pixelBytes hy hx hk) hguard dst hlt
  rw [hidxval, hvval] at main
  rw [convert_loop_eq_foldl]
  exact main

/-- C1 witness: the spec's concrete instance width=512, height=32,
source_pitch=512, X-tiling: destination pixel (0, 9) is read from
src[4608..4612) into dst starting at 9*512*4. -/
theorem C1_witness :
    spec_src_offset 512 512 8 0 9 = 4608 ∧
    spec_dst_offset 512 0 9 = 9 * 512 * 4 ∧
    (convert_tiled_to_linear ((List.replicate 16384 0).set 4608 7) (List.replicate 65536 0)
        512 32 512 INTEL_TILING_X =
      some (convert_loop ((List.replicate 16384 0).set 4608 7) 512 32 512 512 8
        (List.replicate 65536 0)) ∧
     ∀ k, k < 4 →
       (convert_loop ((List.replicate 16384 0).set 4608 7) 512 32 512 512 8
           (List.replicate 65536 0)).getD (spec_dst_offset 512 0 9 + k) 0 =
         ((List.replicate 16384 0).set 4608 7).getD (spec_src_offset 512 512 8 0 9 + k) 0) :=
  ⟨by decide, by decide,
   C1_layout_converter ((List.replicate 16384 0).set 4608 7) (List.replicate 65536 0)
     512 32 512 INTEL_TILING_X 512 8 rfl 0 9 (by decide) (by decide)
     (by decide) (by decide)
     (by rw [List.length_set, List.length_replicate])
     (by rw [List.length_replicate]) (by decide) (by decide)⟩

lemma copy_pixel_byte_length (src : List Nat) (width height pitch tile_w tile_h x y k : Nat)
    (d : List Nat) :
    (copy_pixel_byte src width height pitch tile_w tile_h x y k d).length = d.length := by
  unfold copy_pixel_byte
  dsimp only
  split <;> simp

lemma foldlM_option_eq_foldl {α : Type} (P : List Nat → Prop)
    (stepC : α → List Nat → Option (List Nat)) (step : α → List Nat → List Nat)
    (hs : ∀ a d, P d → stepC a d = some (step a d))
    (hP : ∀ a d, P d → P (step a d)) :
    ∀ (l : List α) (d : List Nat), P d →
      l.foldlM (fun d a => stepC a d) d = some (l.foldl (fun d a => step a d) d) ∧
        P (l.foldl (fun d a => step a d) d) := by
  intro l
  induction l with
  | nil => exact fun d hd => ⟨rfl, hd⟩
  | cons a l ih =>
    intro d hd
    rw [List.foldlM_cons, hs a d hd]
    simp only [List.foldl_cons, Option.bind_eq_bind, Option.some_bind]
    exact ih (step a d) (hP a d hd)

lemma copy_pixel_byte_checked_eq (src : List Nat) (width height pitch tile_w tile_h x y k : Nat)
    (hsrc : height * pitch ≤ src.length) (d : List Nat) (hd : height * width * 4 ≤ d.length) :
    copy_pixel_byte_checked src width height pitch tile_w tile_h x y k d =
      some (copy_pixel_byte src width height pitch tile_w tile_h x y k d) := by
  unfold copy_pixel_byte_checked copy_pixel_byte
  dsimp only
  split
  case isFalse h => rfl
  case isTrue h =>
    obtain ⟨h1, h2⟩ := h
    have hs : (conv_src_offset pitch tile_w tile_h x y + k) % U32 < src.length :=
      lt_of_lt_of_le (lt_of_lt_of_le h1 (Nat.mod_le _ _)) hsrc
    have hdlt : (conv_dst_offset width x y + k) % U32 < d.length := by
      refine lt_of_lt_of_le (lt_of_lt_of_le h2 ?_) hd
      calc height * width % U32 * 4 % U32 ≤ height * width % U32 * 4 := Nat.mod_le _ _
        _ ≤ height * width * 4 := Nat.mul_le_mul_right _ (Nat.mod_le _ _)
    rw [List.get?_eq_get hs]
    dsimp only
    rw [if_pos hdlt]
    congr 1
    rw [List.getD_eq_getElem?_getD, List.getElem?_eq_getElem hs]
    rfl

/-- C5 (amended): for all width, height, source_pitch and tiling mode in
{X, Y, Yf}, when src holds height*source_pitch bytes and dst holds
height*width*4 bytes, the Layout Converter performs no out-of-range access:
the access-checked converter (which fails on any out-of-range read or write)
succeeds and computes exactly the converter's result.  Each byte copy is
guarded per byte: a byte whose source or destination offset violates its own
bound is skipped silently, with the destination byte keeping its prior value
(the else branch of `copy_pixel_byte`); it is not true that every performed
read satisfies src_offset+3 < height*source_pitch (see the counterexample). -/
theorem C5_amended_no_oob (src dst : List Nat) (width height pitch : Nat)
    (tiling : intel_tiling) (tw th : Nat) (htd : tileDims tiling = some (tw, th))
    (hsrc : height * pitch ≤ src.length) (hdst : height * width * 4 ≤ dst.length) :
    convert_loop_checked src width height pitch tw th dst =
      some (convert_loop src width height pitch tw th dst) := by
  have inner : ∀ (x y : Nat) (d : List Nat), height * width * 4 ≤ d.length →
      (List.range 4).foldlM
          (fun d3 k => copy_pixel_byte_checked src width height pitch tw th x y k d3) d =
        some ((List.range 4).foldl
          (fun d3 k => copy_pixel_byte src width height pitch tw th x y k d3) d) ∧
      height * width * 4 ≤ ((List.range 4).foldl
          (fun d3 k => copy_pixel_byte src width height pitch tw th x y k d3) d).length := by
    intro x y
    exact foldlM_option_eq_foldl (fun d => height * width * 4 ≤ d.length)
      (fun k d => copy_pixel_byte_checked src width height pitch tw th x y k d)
      (fun k d => copy_pixel_byte src width height pitch tw th x y k d)
      (fun k d hd => copy_pixel_byte_checked_eq src width height pitch tw th x y k hsrc d hd)
      (fun k d hd => by
        show height * width * 4 ≤ (copy_pixel_byte src width height pitch tw th x y k d).length
        rw [copy_pixel_byte_length]
        exact hd) (List.range 4)
  have mid : ∀ (y : Nat) (d : List Nat), height * width * 4 ≤ d.length →
      (List.range width).foldlM
          (fun d2 x => (List.range 4).foldlM
            (fun d3 k => copy_pixel_byte_checked src width height pitch tw th x y k d3) d2) d =
        some ((List.range width).foldl
          (fun d2 x => (List.range 4).foldl
            (fun d3 k => copy_pixel_byte src width height pitch tw th x y k d3) d2) d) ∧
      height * width * 4 ≤ ((List.range width).foldl
          (fun d2 x => (List.range 4).foldl
            (fun d3 k => copy_pixel_byte src width height pitch tw th x y k d3) d2) d).length := by
    intro y
    exact foldlM_option_eq_foldl (fun d => height * width * 4 ≤ d.length) _ _
      (fun x d hd => (inner x y d hd).1) (fun x d hd => (inner x y d hd).2) (List.range width)
  have outer := foldlM_option_eq_foldl (fun d => height * width * 4 ≤ d.length) _ _
    (fun y d hd => (mid y d hd).1) (fun y d hd => (mid y d hd).2) (List.range height) dst hdst
  exact outer.1

/-- C5 counterexample: with width=1, height=1, source_pitch=2 and X tiling,
the only pixel (0, 0) has src_offset+3 = 3, which is not below
height*source_pitch = 2, yet the converter still reads src byte 0: two source
buffers differing only in byte 0 produce different outputs.  So the claim
that every read satisfies src_offset+3 < height*source_pitch is false; the
guard is per byte, not per pixel. -/
theorem C5_counterexample :
    ¬ spec_src_offset 2 512 8 0 0 + 3 < 1 * 2 ∧
    tileDims INTEL_TILING_X = some (512, 8) ∧
    convert_tiled_to_linear [5, 7] (List.replicate 4 0) 1 1 2 INTEL_TILING_X =
      some (convert_loop [5, 7] 1 1 2 512 8 (List.replicate 4 0)) ∧
    convert_loop [5, 7] 1 1 2 512 8 (List.replicate 4 0) ≠
      convert_loop [9, 7] 1 1 2 512 8 (List.replicate 4 0) := by
  decide

/-- C5 witness: the amended no-out-of-range theorem at the concrete instance
width=1, height=1, source_pitch=2, X tiling. -/
theorem C5_amended_witness :
    1 * 2 ≤ ([5, 7] : List Nat).length ∧ 1 * 1 * 4 ≤ (List.replicate 4 0 : List Nat).length ∧
    convert_loop_checked [5, 7] 1 1 2 512 8 (List.replicate 4 0) =
      some (convert_loop [5, 7] 1 1 2 512 8 (List.replicate 4 0)) :=
  ⟨by decide, by decide,
   C5_amended_no_oob [5, 7] (List.replicate 4 0) 1 1 2 INTEL_TILING_X 512 8 rfl
     (by decide) (by decide)⟩


lemma extract_gem_pixels_preserves (inp : runInput) (cap : fb_pixel_data) :
    (extract_gem_pixels inp cap).2.fb = cap.fb ∧
    (extract_gem_pixels inp cap).2.dev = cap.dev ∧
    (extract_gem_pixels inp cap).2.buffer_size = cap.buffer_size ∧
    (extract_gem_pixels inp cap).2.width = cap.width ∧
    (extract_gem_pixels inp cap).2.height = cap.height ∧
    (extract_gem_pixels inp cap).2.format = cap.format ∧
    (extract_gem_pixels inp cap).2.pitch = cap.pitch ∧
    (extract_gem_pixels inp cap).2.timestamp = cap.timestamp ∧
    (extract_gem_pixels inp cap).2.valid = cap.valid ∧
    (extract_gem_pixels inp cap).2.has_pixels = cap.has_pixels ∧
    (extract_gem_pixels inp cap).2.detected_tiling = cap.detected_tiling := by
  unfold extract_gem_pixels detile_into
  dsimp only
  split
  · simp
  cases inp.shmem <;> cases inp.dmabuf <;>
    dsimp only <;>
    (repeat' split) <;>
    simp_all

lemma capture_fb_pixels_fst (inp : runInput) (st : captureState) :
    (capture_fb_pixels inp st).1 =
      if inp.objPresent = false then -EINVAL
      else if inp.finalAllocOk = false then -ENOMEM
      else 0 := by
  unfold capture_fb_pixels
  dsimp only
  split
  · rfl
  · split <;> rfl



lemma capture_fb_pixels_success (inp : runInput) (st : captureState)
    (hobj : inp.objPresent = true) (halloc : inp.finalAllocOk = true) :
    ∃ rec : fb_pixel_data,
      capture_fb_pixels inp st =
        (0, ⟨st.captured_fbs.set st.current_index rec,
             if st.capture_count < MAX_FB_CAPTURE then st.capture_count + 1
             else st.capture_count,
             (st.current_index + 1) % MAX_FB_CAPTURE⟩) ∧
      rec.valid = true ∧ rec.timestamp = inp.now ∧ rec.fb = inp.fbId ∧
      rec.width = inp.width ∧ rec.height = inp.height ∧
      rec.buffer_size =
        (if inp.height * inp.width % U32 * 4 % U32 > MAX_CAPTURE_SIZE then MAX_CAPTURE_SIZE
         else inp.height * inp.width % U32 * 4 % U32) := by
  unfold capture_fb_pixels
  rw [hobj, halloc]
  dsimp only
  rw [if_neg (by simp), if_neg (by simp)]
  refine ⟨_, rfl, ?_, ?_, ?_, ?_, ?_, ?_⟩ <;>
    ((repeat' split) <;> simp [extract_gem_pixels_preserves])



lemma getD_set_self (fbs : List fb_pixel_data) (i : Nat) (rec : fb_pixel_data)
    (h : i < fbs.length) :
    (fbs.set i rec).getD i zero_fb_pixel_data = rec := by
  rw [List.getD_eq_getElem?_getD, List.getElem?_set_eq_of_lt _ h]
  rfl

lemma capture_fb_pixels_alloc_failure (inp : runInput) (st : captureState)
    (hlen : st.captured_fbs.length = MAX_FB_CAPTURE)
    (hidx : st.current_index < MAX_FB_CAPTURE)
    (hobj : inp.objPresent = true) (halloc : inp.finalAllocOk = false) :
    (capture_fb_pixels inp st).1 = -ENOMEM ∧
    (capture_fb_pixels inp st).2.current_index = st.current_index ∧
    (capture_fb_pixels inp st).2.capture_count = st.capture_count ∧
    ((capture_fb_pixels inp st).2.captured_fbs.getD st.current_index
        zero_fb_pixel_data).valid = false ∧
    ((capture_fb_pixels inp st).2.captured_fbs.getD st.current_index
        zero_fb_pixel_data).has_pixels = false ∧
    ((capture_fb_pixels inp st).2.captured_fbs.getD st.current_index
        zero_fb_pixel_data).pixel_buffer = none ∧
    ((capture_fb_pixels inp st).2.captured_fbs.getD st.current_index
        zero_fb_pixel_data).width = inp.width ∧
    ((capture_fb_pixels inp st).2.captured_fbs.getD st.current_index
        zero_fb_pixel_data).timestamp = inp.now := by
  unfold capture_fb_pixels
  rw [hobj, halloc]
  dsimp only
  rw [if_neg (by simp), if_pos rfl]
  refine ⟨rfl, rfl, rfl, ?_, ?_, ?_, ?_, ?_⟩ <;>
    rw [getD_set_self _ _ _ (by omega)] <;> split <;> rfl

lemma extract_gem_pixels_scratch_fail (inp : runInput) (cap : fb_pixel_data)
    (htile : cap.detected_tiling ≠ INTEL_TILING_NONE) (hscr : inp.scratchAllocOk = false) :
    extract_gem_pixels inp cap = (-ENOMEM, cap) := by
  unfold extract_gem_pixels
  dsimp only
  rw [if_pos ⟨htile, hscr⟩]



/-- C10: when the final pixel-buffer allocation fails, the pipeline run
returns -ENOMEM with current_index and capture_count unchanged, but the
targeted slot has already been destroyed: its pixel buffer was freed and the
record zeroed (is_valid = false, no pixel data) before the allocation was
attempted, with only the new metadata fields populated.  A previously valid
frame in that slot is therefore lost without any new frame being committed. -/
theorem C10_alloc_failure_destroys_slot (inp : runInput) (st : captureState)
    (hlen : st.captured_fbs.length = MAX_FB_CAPTURE)
    (hidx : st.current_index < MAX_FB_CAPTURE)
    (hobj : inp.objPresent = true) (halloc : inp.finalAllocOk = false) :
    (capture_fb_pixels inp st).1 = -ENOMEM ∧
    (capture_fb_pixels inp st).2.current_index = st.current_index ∧
    (capture_fb_pixels inp st).2.capture_count = st.capture_count ∧
    ((capture_fb_pixels inp st).2.captured_fbs.getD st.current_index
        zero_fb_pixel_data).valid = false ∧
    ((capture_fb_pixels inp st).2.captured_fbs.getD st.current_index
        zero_fb_pixel_data).has_pixels = false ∧
    ((capture_fb_pixels inp st).2.captured_fbs.getD st.current_index
        zero_fb_pixel_data).pixel_buffer = none ∧
    ((capture_fb_pixels inp st).2.captured_fbs.getD st.current_index
        zero_fb_pixel_data).width = inp.width ∧
    ((capture_fb_pixels inp st).2.captured_fbs.getD st.current_index
        zero_fb_pixel_data).timestamp = inp.now :=
  capture_fb_pixels_alloc_failure inp st hlen hidx hobj halloc


/-- C10 witness: after five successful captures slot 0 holds a valid frame
and is the next target; a run whose final allocation fails returns -ENOMEM,
leaves the counters unchanged, and leaves slot 0 invalid with no buffer. -/
theorem C10_witness :
    ((runSeq fiveRuns initState).captured_fbs.getD 0 zero_fb_pixel_data).valid = true ∧
    (runSeq fiveRuns initState).current_index = 0 ∧
    (capture_fb_pixels allocFailRun (runSeq fiveRuns initState)).1 = -ENOMEM ∧
    (capture_fb_pixels allocFailRun (runSeq fiveRuns initState)).2.capture_count =
      (runSeq fiveRuns initState).capture_count ∧
    ((capture_fb_pixels allocFailRun (runSeq fiveRuns initState)).2.captured_fbs.getD
        (runSeq fiveRuns initState).current_index zero_fb_pixel_data).valid = false ∧
    ((capture_fb_pixels allocFailRun (runSeq fiveRuns initState)).2.captured_fbs.getD
        (runSeq fiveRuns initState).current_index zero_fb_pixel_data).pixel_buffer = none :=
  ⟨by decide, by decide,
   (C10_alloc_failure_destroys_slot allocFailRun (runSeq fiveRuns initState)
     (by decide) (by decide) (by decide) (by decide)).1,
   (C10_alloc_failure_destroys_slot allocFailRun (runSeq fiveRuns initState)
     (by decide) (by decide) (by decide) (by decide)).2.2.1,
   (C10_alloc_failure_destroys_slot allocFailRun (runSeq fiveRuns initState)
     (by decide) (by decide) (by decide) (by decide)).2.2.2.1,
   (C10_alloc_failure_destroys_slot allocFailRun (runSeq fiveRuns initState)
     (by decide) (by decide) (by decide) (by decide)).2.2.2.2.2.1⟩

/-- C2 counterexample: a run on an X-tiled framebuffer whose scratch-buffer
allocation fails (final allocation succeeding) does NOT fail with
OutOfMemory: the pipeline returns 0 and commits the slot with
is_valid = true, contradicting the claim that scratch-allocation failure is
surfaced to the caller with the slot left invalid. -/
theorem C2_counterexample :
    detect_intel_tiling C2input.modifier C2input.pitch = INTEL_TILING_X ∧
    C2input.scratchAllocOk = false ∧ C2input.finalAllocOk = true ∧
    (capture_fb_pixels C2input initState).1 = 0 ∧
    ((capture_fb_pixels C2input initState).2.captured_fbs.getD 0
        zero_fb_pixel_data).valid = true := by
  decide

/-- C2 (amended): failure of the final pixel-buffer allocation fails the
run with -ENOMEM and leaves the slot invalid with no pixel data; failure of
the scratch-buffer allocation (tiling detected, scratch vmalloc fails) makes
the Extractor return -ENOMEM, but the pipeline swallows it: the run reports
success and the frame is committed metadata-only (is_valid = true,
has_pixel_data = false). -/
theorem C2_amended (inp : runInput) (st : captureState)
    (hlen : st.captured_fbs.length = MAX_FB_CAPTURE)
    (hidx : st.current_index < MAX_FB_CAPTURE)
    (hobj : inp.objPresent = true) :
    (inp.finalAllocOk = false →
      (capture_fb_pixels inp st).1 = -ENOMEM ∧
      ((capture_fb_pixels inp st).2.captured_fbs.getD st.current_index
          zero_fb_pixel_data).valid = false ∧
      ((capture_fb_pixels inp st).2.captured_fbs.getD st.current_index
          zero_fb_pixel_data).pixel_buffer = none) ∧
    (inp.finalAllocOk = true → inp.scratchAllocOk = false →
      detect_intel_tiling inp.modifier inp.pitch ≠ INTEL_TILING_NONE →
      (∀ cap : fb_pixel_data, cap.detected_tiling ≠ INTEL_TILING_NONE →
        (extract_gem_pixels inp cap).1 = -ENOMEM) ∧
      (capture_fb_pixels inp st).1 = 0 ∧
      ((capture_fb_pixels inp st).2.captured_fbs.getD st.current_index
          zero_fb_pixel_data).valid = true ∧
      ((capture_fb_pixels inp st).2.captured_fbs.getD st.current_index
          zero_fb_pixel_data).has_pixels = false) := by
  constructor
  · intro halloc
    have h := capture_fb_pixels_alloc_failure inp st hlen hidx hobj halloc
    exact ⟨h.1, h.2.2.2.1, h.2.2.2.2.2.1⟩
  · intro halloc hscr htile
    refine ⟨fun cap hcap => by rw [extract_gem_pixels_scratch_fail inp cap hcap hscr], ?_⟩
    unfold capture_fb_pixels
    rw [hobj, halloc]
    dsimp only
    rw [if_neg (by simp), if_neg (by simp)]
    rw [extract_gem_pixels_scratch_fail inp _ htile hscr]
    dsimp only
    rw [if_neg (by decide)]
    refine ⟨rfl, ?_, ?_⟩ <;> rw [getD_set_self _ _ _ (by omega)]

/-- C2 witness: both amended behaviors at concrete inputs: a run with a
failing final allocation, and an X-tiled run with a failing scratch
allocation. -/
theorem C2_witness :
    ((capture_fb_pixels allocFailRun initState).1 = -ENOMEM ∧
     ((capture_fb_pixels allocFailRun initState).2.captured_fbs.getD 0
         zero_fb_pixel_data).valid = false) ∧
    ((capture_fb_pixels C2input initState).1 = 0 ∧
     ((capture_fb_pixels C2input initState).2.captured_fbs.getD 0
         zero_fb_pixel_data).valid = true ∧
     ((capture_fb_pixels C2input initState).2.captured_fbs.getD 0
         zero_fb_pixel_data).has_pixels = false) :=
  ⟨⟨((C2_amended allocFailRun initState (by decide) (by decide) (by decide)).1 rfl).1,
    ((C2_amended allocFailRun initState (by decide) (by decide) (by decide)).1 rfl).2.1⟩,
   ⟨((C2_amended C2input initState (by decide) (by decide) (by decide)).2 rfl rfl
       (by decide)).2.1,
    ((C2_amended C2input initState (by decide) (by decide) (by decide)).2 rfl rfl
       (by decide)).2.2.1,
    ((C2_amended C2input initState (by decide) (by decide) (by decide)).2 rfl rfl
       (by decide)).2.2.2⟩⟩

lemma extract_gem_pixels_no_backend (inp : runInput) (cap : fb_pixel_data)
    (hscr : inp.scratchAllocOk = true) (hsh : inp.shmem = none) (hdm : inp.dmabuf = none) :
    extract_gem_pixels inp cap = (-ENODATA, cap) := by
  unfold extract_gem_pixels
  dsimp only
  rw [if_neg (by simp [hscr]), hsh, hdm]

/-- C8: when no extraction backend applies, the Extractor fails with
-ENODATA and the pipeline recovers locally: the frame is still committed
with is_valid = true and has_pixel_data = false, the circular counters
advance, and the pipeline run itself returns 0 (success). -/
theorem C8_nodata_recovery (inp : runInput) (st : captureState)
    (hlen : st.captured_fbs.length = MAX_FB_CAPTURE)
    (hidx : st.current_index < MAX_FB_CAPTURE)
    (hobj : inp.objPresent = true) (halloc : inp.finalAllocOk = true)
    (hscr : inp.scratchAllocOk = true) (hsh : inp.shmem = none) (hdm : inp.dmabuf = none) :
    (∀ cap : fb_pixel_data, (extract_gem_pixels inp cap).1 = -ENODATA) ∧
    (capture_fb_pixels inp st).1 = 0 ∧
    ((capture_fb_pixels inp st).2.captured_fbs.getD st.current_index
        zero_fb_pixel_data).valid = true ∧
    ((capture_fb_pixels inp st).2.captured_fbs.getD st.current_index
        zero_fb_pixel_data).has_pixels = false ∧
    (capture_fb_pixels inp st).2.current_index = (st.current_index + 1) % MAX_FB_CAPTURE ∧
    (capture_fb_pixels inp st).2.capture_count =
      (if st.capture_count < MAX_FB_CAPTURE then st.capture_count + 1
       else st.capture_count) := by
  refine ⟨fun cap => by rw [extract_gem_pixels_no_backend inp cap hscr hsh hdm], ?_⟩
  unfold capture_fb_pixels
  rw [hobj, halloc]
  dsimp only
  rw [if_neg (by simp), if_neg (by simp)]
  rw [extract_gem_pixels_no_backend inp _ hscr hsh hdm]
  dsimp only
  rw [if_neg (by decide)]
  refine ⟨rfl, ?_, ?_, rfl, rfl⟩ <;> rw [getD_set_self _ _ _ (by omega)]

/-- C8 witness: a concrete run with no SHMEM and no DMA-buf backend on the
initial state. -/
theorem C8_witness :
    (extract_gem_pixels noBackendRun zero_fb_pixel_data).1 = -ENODATA ∧
    (capture_fb_pixels noBackendRun initState).1 = 0 ∧
    ((capture_fb_pixels noBackendRun initState).2.captured_fbs.getD 0
        zero_fb_pixel_data).valid = true ∧
    ((capture_fb_pixels noBackendRun initState).2.captured_fbs.getD 0
        zero_fb_pixel_data).has_pixels = false ∧
    (capture_fb_pixels noBackendRun initState).2.current_index = 1 ∧
    (capture_fb_pixels noBackendRun initState).2.capture_count = 1 :=
  ⟨(C8_nodata_recovery noBackendRun initState (by decide) (by decide) rfl rfl rfl rfl
      rfl).1 zero_fb_pixel_data,
   (C8_nodata_recovery noBackendRun initState (by decide) (by decide) rfl rfl rfl rfl
      rfl).2.1,
   (C8_nodata_recovery noBackendRun initState (by decide) (by decide) rfl rfl rfl rfl
      rfl).2.2.1,
   (C8_nodata_recovery noBackendRun initState (by decide) (by decide) rfl rfl rfl rfl
      rfl).2.2.2.1,
   (C8_nodata_recovery noBackendRun initState (by decide) (by decide) rfl rfl rfl rfl
      rfl).2.2.2.2.1,
   (C8_nodata_recovery noBackendRun initState (by decide) (by decide) rfl rfl rfl rfl
      rfl).2.2.2.2.2⟩

/-- C7 counterexample: a 2^30 x 4 framebuffer has height*width*4 = 2^34,
which the module computes in uint32 arithmetic as 0; the committed
buffer_size is 0, not min(2^34, MAX_CAPTURE_SIZE) = MAX_CAPTURE_SIZE as the
claim (read in exact arithmetic) requires. -/
theorem C7_counterexample :
    C7input.width = 2 ^ 30 ∧ C7input.height = 4 ∧
    (capture_fb_pixels C7input initState).1 = 0 ∧
    ((capture_fb_pixels C7input initState).2.captured_fbs.getD 0
        zero_fb_pixel_data).buffer_size = 0 ∧
    min (4 * 2 ^ 30 * 4) MAX_CAPTURE_SIZE = MAX_CAPTURE_SIZE ∧
    (0 : Nat) ≠ MAX_CAPTURE_SIZE := by
  decide

/-- C7 (amended): for every pipeline run that commits (returns 0), the
committed buffer_size equals min((height*width*4) mod 2^32, MAX_CAPTURE_SIZE)
with MAX_CAPTURE_SIZE = 3840*1080*4; in particular a wrapped size exceeding
MAX_CAPTURE_SIZE is truncated to exactly MAX_CAPTURE_SIZE. -/
theorem C7_amended (inp : runInput) (st : captureState)
    (hlen : st.captured_fbs.length = MAX_FB_CAPTURE)
    (hidx : st.current_index < MAX_FB_CAPTURE)
    (hobj : inp.objPresent = true) (halloc : inp.finalAllocOk = true) :
    (capture_fb_pixels inp st).1 = 0 ∧
    ((capture_fb_pixels inp st).2.captured_fbs.getD st.current_index
        zero_fb_pixel_data).buffer_size =
      min (inp.height * inp.width % U32 * 4 % U32) MAX_CAPTURE_SIZE := by
  obtain ⟨rec, heq, hv, ht, hf, hw, hh, hbs⟩ := capture_fb_pixels_success inp st hobj halloc
  rw [heq]
  refine ⟨rfl, ?_⟩
  dsimp only
  rw [getD_set_self _ _ _ (by omega), hbs]
  split <;> omega

/-- C7 witness: the amended truncation formula at a concrete committing
run. -/
theorem C7_witness :
    (capture_fb_pixels noBackendRun initState).1 = 0 ∧
    ((capture_fb_pixels noBackendRun initState).2.captured_fbs.getD 0
        zero_fb_pixel_data).buffer_size =
      min (noBackendRun.height * noBackendRun.width % U32 * 4 % U32) MAX_CAPTURE_SIZE :=
  C7_amended noBackendRun initState (by decide) (by decide) rfl rfl

/-- C3 counterexample: modifier 0 with pitch 512 matches none of the three
Intel modifiers and has pitch a multiple of 512, so per the claim detection
should yield X-tiling; the code returns INTEL_TILING_NONE (the !fb->modifier
early return skips the pitch heuristic). -/
theorem C3_counterexample :
    (512 : Nat) % INTEL_TILE_X_WIDTH = 0 ∧
    (0 : Nat) ≠ I915_FORMAT_MOD_X_TILED ∧ (0 : Nat) ≠ I915_FORMAT_MOD_Y_TILED ∧
    (0 : Nat) ≠ I915_FORMAT_MOD_Yf_TILED ∧
    detect_intel_tiling 0 512 = INTEL_TILING_NONE ∧
    INTEL_TILING_NONE ≠ INTEL_TILING_X := by
  decide

/-- C3 (amended): a zero modifier always yields no tiling (the pitch
heuristic is not consulted); otherwise an exact match of the modifier
against the known X/Y/Yf modifiers determines the mode, and with no known
modifier matching, the mode is X-tiling if source_pitch is a multiple of 512
and None otherwise. -/
theorem C3_amended (modifier pitch : Nat) :
    (modifier = 0 → detect_intel_tiling modifier pitch = INTEL_TILING_NONE) ∧
    (modifier = I915_FORMAT_MOD_X_TILED →
      detect_intel_tiling modifier pitch = INTEL_TILING_X) ∧
    (modifier = I915_FORMAT_MOD_Y_TILED →
      detect_intel_tiling modifier pitch = INTEL_TILING_Y) ∧
    (modifier = I915_FORMAT_MOD_Yf_TILED →
      detect_intel_tiling modifier pitch = INTEL_TILING_YF) ∧
    (modifier ≠ 0 → modifier ≠ I915_FORMAT_MOD_X_TILED →
      modifier ≠ I915_FORMAT_MOD_Y_TILED → modifier ≠ I915_FORMAT_MOD_Yf_TILED →
      detect_intel_tiling modifier pitch =
        if pitch % INTEL_TILE_X_WIDTH = 0 then INTEL_TILING_X else INTEL_TILING_NONE) := by
  refine ⟨?_, ?_, ?_, ?_, ?_⟩
  · intro h
    subst h
    rfl
  · intro h
    subst h
    unfold detect_intel_tiling
    rw [if_neg (by decide), if_pos rfl]
  · intro h
    subst h
    unfold detect_intel_tiling
    rw [if_neg (by decide), if_neg (by decide), if_pos rfl]
  · intro h
    subst h
    unfold detect_intel_tiling
    rw [if_neg (by decide), if_neg (by decide), if_neg (by decide), if_pos rfl]
  · intro h0 hx hy hyf
    unfold detect_intel_tiling
    rw [if_neg h0, if_neg hx, if_neg hy, if_neg hyf]

/-- C3 witness: all branches of the amended detection at concrete
modifiers and pitches. -/
theorem C3_amended_witness :
    detect_intel_tiling 0 512 = INTEL_TILING_NONE ∧
    detect_intel_tiling I915_FORMAT_MOD_X_TILED 7 = INTEL_TILING_X ∧
    detect_intel_tiling I915_FORMAT_MOD_Y_TILED 7 = INTEL_TILING_Y ∧
    detect_intel_tiling I915_FORMAT_MOD_Yf_TILED 7 = INTEL_TILING_YF ∧
    detect_intel_tiling 5 1024 =
      (if 1024 % INTEL_TILE_X_WIDTH = 0 then INTEL_TILING_X else INTEL_TILING_NONE) ∧
    detect_intel_tiling 5 1000 =
      (if 1000 % INTEL_TILE_X_WIDTH = 0 then INTEL_TILING_X else INTEL_TILING_NONE) :=
  ⟨(C3_amended 0 512).1 rfl,
   (C3_amended I915_FORMAT_MOD_X_TILED 7).2.1 rfl,
   (C3_amended I915_FORMAT_MOD_Y_TILED 7).2.2.1 rfl,
   (C3_amended I915_FORMAT_MOD_Yf_TILED 7).2.2.2.1 rfl,
   (C3_amended 5 1024).2.2.2.2 (by decide) (by decide) (by decide) (by decide),
   (C3_amended 5 1000).2.2.2.2 (by decide) (by decide) (by decide) (by decide)⟩

/-- C9: raw-read boundary behavior: with no pixel-bearing frame the read
fails with -ENODATA; for the targeted pixel-bearing frame (whose buffer
length equals its buffer_size), a read at offset >= buffer_size returns zero
bytes (not an error), and a read below buffer_size returns exactly
min(length, buffer_size - offset) bytes starting at offset. -/
theorem C9_raw_read_bounds (st : captureState) (pos count : Nat) :
    (find_recent st.captured_fbs st.capture_count = none →
      drm_fb_raw_read st pos count = .error (-ENODATA)) ∧
    (∀ (cap : fb_pixel_data) (pb : List Nat),
      find_recent st.captured_fbs st.capture_count = some cap →
      cap.pixel_buffer = some pb → pb.length = cap.buffer_size →
      (pos ≥ cap.buffer_size → drm_fb_raw_read st pos count = .ok []) ∧
      (pos < cap.buffer_size →
        drm_fb_raw_read st pos count =
          .ok ((pb.drop pos).take (min count (cap.buffer_size - pos))) ∧
        ((pb.drop pos).take (min count (cap.buffer_size - pos))).length =
          min count (cap.buffer_size - pos))) := by
  constructor
  · intro hfind
    unfold drm_fb_raw_read
    rw [hfind]
  · intro cap pb hfind hpb hlen
    unfold drm_fb_raw_read
    rw [hfind]
    dsimp only
    rw [hpb]
    dsimp only
    constructor
    · intro hge
      rw [if_pos hge]
    · intro hlt
      rw [if_neg (by omega)]
      refine ⟨rfl, ?_⟩
      rw [List.length_take, List.length_drop, hlen]
      omega

/-- C9 witness: on a one-frame store with buffer_size 4:
read_raw(4, 1) = zero bytes, read_raw(3, 10) = exactly 1 byte, and read_raw
on the empty store fails with -ENODATA. -/
theorem C9_witness :
    drm_fb_raw_read initState 0 1 = .error (-ENODATA) ∧
    drm_fb_raw_read oneRunState 4 1 = .ok [] ∧
    drm_fb_raw_read oneRunState 3 10 =
      .ok ((([10, 0, 0, 0] : List Nat).drop 3).take (min 10 (oneRunCap.buffer_size - 3))) ∧
    ((([10, 0, 0, 0] : List Nat).drop 3).take (min 10 (oneRunCap.buffer_size - 3))).length =
      min 10 (oneRunCap.buffer_size - 3) ∧
    ((([10, 0, 0, 0] : List Nat).drop 3).take (min 10 (oneRunCap.buffer_size - 3))) = [0] :=
  ⟨(C9_raw_read_bounds initState 0 1).1 (by decide),
   ((C9_raw_read_bounds oneRunState 4 1).2 oneRunCap [10, 0, 0, 0] (by decide) (by decide)
      (by decide)).1 (by decide),
   (((C9_raw_read_bounds oneRunState 3 10).2 oneRunCap [10, 0, 0, 0] (by decide) (by decide)
      (by decide)).2 (by decide)).1,
   (((C9_raw_read_bounds oneRunState 3 10).2 oneRunCap [10, 0, 0, 0] (by decide) (by decide)
      (by decide)).2 (by decide)).2,
   by decide⟩

/-- C4 failing input, demonstrating the bug: after six successful
pixel-bearing captures the circular buffer has wrapped: the most recently
committed pixel-bearing frame is the sixth (timestamp 106, bytes
[60, 0, 0, 0], in slot 0), but the scan of drm_fb_raw_read walks slots
capture_count-1 .. 0 and returns the fifth frame's data [50] from slot 4 --
not newest-first, contradicting the claim (and the code's own comment
"Find the most recent capture with pixel data"). -/
theorem C4_code_bug_demo :
    (runSeq sixRuns initState).capture_count = 5 ∧
    (runSeq sixRuns initState).current_index = 1 ∧
    ((runSeq sixRuns initState).captured_fbs.getD 0 zero_fb_pixel_data).has_pixels = true ∧
    ((runSeq sixRuns initState).captured_fbs.getD 0 zero_fb_pixel_data).timestamp = 106 ∧
    ((runSeq sixRuns initState).captured_fbs.getD 0 zero_fb_pixel_data).pixel_buffer =
      some [60, 0, 0, 0] ∧
    ((runSeq sixRuns initState).captured_fbs.getD 1 zero_fb_pixel_data).timestamp = 102 ∧
    ((runSeq sixRuns initState).captured_fbs.getD 2 zero_fb_pixel_data).timestamp = 103 ∧
    ((runSeq sixRuns initState).captured_fbs.getD 3 zero_fb_pixel_data).timestamp = 104 ∧
    ((runSeq sixRuns initState).captured_fbs.getD 4 zero_fb_pixel_data).timestamp = 105 ∧
    drm_fb_raw_read (runSeq sixRuns initState) 0 1 = .ok [50] ∧
    ([50] : List Nat) ≠ [60] := by
  decide

lemma runSeq_append_singleton (rs : List runInput) (r : runInput) (st : captureState) :
    runSeq (rs ++ [r]) st = (capture_fb_pixels r (runSeq rs st)).2 := by
  unfold runSeq
  rw [List.foldl_append]
  rfl

lemma capture_ok_inputs (r : runInput) (hr : ∀ st : captureState, (capture_fb_pixels r st).1 = 0) :
    r.objPresent = true ∧ r.finalAllocOk = true := by
  have h0 := hr initState
  rw [capture_fb_pixels_fst] at h0
  by_cases ho : r.objPresent = false
  · rw [if_pos ho] at h0
    exact absurd h0 (by decide)
  · rw [if_neg ho] at h0
    by_cases ha : r.finalAllocOk = false
    · rw [if_pos ha] at h0
      exact absurd h0 (by decide)
    · exact ⟨by revert ho; cases r.objPresent <;> simp, by revert ha; cases r.finalAllocOk <;> simp⟩

/-- C6: the store holds exactly MAX_FB_CAPTURE = 5 slots reused
circularly: after any sequence of successful pipeline runs from the initial
state, capture_count = min(total_inserted, 5), current_index =
total_inserted mod 5, slot j (for j below min(total_inserted, 5)) is valid
and holds the frame of the last run whose 0-based position is congruent to
j mod 5 (so inserting 6 frames evicts the oldest, the first frame, from
slot 0), and all remaining slots are untouched. -/
theorem C6_capacity (runs : List runInput)
    (hok : ∀ inp ∈ runs, ∀ st : captureState, (capture_fb_pixels inp st).1 = 0) :
    (runSeq runs initState).capture_count = min runs.length MAX_FB_CAPTURE ∧
    (runSeq runs initState).current_index = runs.length % MAX_FB_CAPTURE ∧
    (runSeq runs initState).captured_fbs.length = MAX_FB_CAPTURE ∧
    (∀ j, j < min runs.length MAX_FB_CAPTURE →
      ((runSeq runs initState).captured_fbs.getD j zero_fb_pixel_data).valid = true ∧
      ((runSeq runs initState).captured_fbs.getD j zero_fb_pixel_data).timestamp =
        (runs.getD (lastRunIdx runs.length j) default).now) ∧
    (∀ j, min runs.length MAX_FB_CAPTURE ≤ j → j < MAX_FB_CAPTURE →
      (runSeq runs initState).captured_fbs.getD j zero_fb_pixel_data = zero_fb_pixel_data) := by
  induction runs using List.reverseRecOn with
  | nil =>
    refine ⟨rfl, rfl, rfl, ?_, ?_⟩
    · intro j hj
      simp [MAX_FB_CAPTURE] at hj
    · intro j hj1 hj2
      simp only [MAX_FB_CAPTURE] at hj2
      interval_cases j <;> rfl
  | append_singleton rs r ih =>
    have hok2 : ∀ inp ∈ rs, ∀ st : captureState, (capture_fb_pixels inp st).1 = 0 :=
      fun inp hm st => hok inp (List.mem_append_left _ hm) st
    have hr : ∀ st : captureState, (capture_fb_pixels r st).1 = 0 :=
      fun st => hok r (List.mem_append_right _ (List.mem_singleton_self r)) st
    obtain ⟨hobj, halloc⟩ := capture_ok_inputs r hr
    obtain ⟨hc, hi, hl, hval, hzero⟩ := ih hok2
    obtain ⟨rec, heq, hv, ht, _⟩ := capture_fb_pixels_success r (runSeq rs initState) hobj halloc
    rw [runSeq_append_singleton, heq]
    dsimp only
    simp only [MAX_FB_CAPTURE, List.length_append, List.length_singleton] at hc hi hl hval hzero ⊢
    refine ⟨?_, ?_, ?_, ?_, ?_⟩
    · rw [hc]
      split <;> omega
    · rw [hi]
      omega
    · rw [List.length_set, hl]
    · intro j hj
      rw [hi]
      by_cases hje : j = rs.length % 5
      · subst hje
        rw [getD_set_self _ _ _ (by rw [hl]; omega)]
        refine ⟨hv, ?_⟩
        have hidxL : lastRunIdx (rs.length + 1) (rs.length % 5) = rs.length := by
          unfold lastRunIdx
          simp only [MAX_FB_CAPTURE]
          split <;> omega
        have happ : (rs ++ [r]).getD rs.length default = r := by
          rw [List.getD_eq_getElem?_getD, List.getElem?_concat_length]
          rfl
        rw [ht, hidxL, happ]
      · have hgd : (((runSeq rs initState).captured_fbs.set (rs.length % 5) rec).getD j
            zero_fb_pixel_data) = (runSeq rs initState).captured_fbs.getD j zero_fb_pixel_data := by
          rw [List.getD_eq_getElem?_getD, List.getElem?_set_ne (fun he => hje he.symm),
            ← List.getD_eq_getElem?_getD]
        rw [hgd]
        have hjlt : j < min rs.length 5 := by omega
        obtain ⟨h1, h2⟩ := hval j hjlt
        refine ⟨h1, ?_⟩
        have hsame : lastRunIdx (rs.length + 1) j = lastRunIdx rs.length j := by
          unfold lastRunIdx
          simp only [MAX_FB_CAPTURE]
          split <;> split <;> omega
        have hlt2 : lastRunIdx rs.length j < rs.length := by
          unfold lastRunIdx
          simp only [MAX_FB_CAPTURE]
          split <;> omega
        have happ : (rs ++ [r]).getD (lastRunIdx rs.length j) default =
            rs.getD (lastRunIdx rs.length j) default := by
          rw [List.getD_eq_getElem?_getD, List.getD_eq_getElem?_getD,
            List.getElem?_append_left hlt2]
        rw [h2, hsame, happ]
    · intro j hj1 hj2
      rw [hi]
      have hje : j ≠ rs.length % 5 := by omega
      have hgd : (((runSeq rs initState).captured_fbs.set (rs.length % 5) rec).getD j
          zero_fb_pixel_data) = (runSeq rs initState).captured_fbs.getD j zero_fb_pixel_data := by
        rw [List.getD_eq_getElem?_getD, List.getElem?_set_ne (fun he => hje he.symm),
          ← List.getD_eq_getElem?_getD]
      rw [hgd]
      exact hzero j (by omega) (by omega)

/-- C6 witness: six concrete successful runs: count 5, index 1, slot 0
holds the sixth frame (timestamp 106, evicting the first), slots 1 and 4
hold the second and fifth frames. -/
theorem C6_witness :
    (runSeq sixRuns initState).capture_count = 5 ∧
    (runSeq sixRuns initState).current_index = 1 ∧
    ((runSeq sixRuns initState).captured_fbs.getD 0 zero_fb_pixel_data).valid = true ∧
    ((runSeq sixRuns initState).captured_fbs.getD 0 zero_fb_pixel_data).timestamp = 106 ∧
    ((runSeq sixRuns initState).captured_fbs.getD 1 zero_fb_pixel_data).timestamp = 102 ∧
    ((runSeq sixRuns initState).captured_fbs.getD 4 zero_fb_pixel_data).timestamp = 105 := by
  have hok : ∀ inp ∈ sixRuns, ∀ st : captureState, (capture_fb_pixels inp st).1 = 0 := by
    intro inp hm st
    rw [capture_fb_pixels_fst]
    fin_cases hm <;> rfl
  have h := C6_capacity sixRuns hok
  refine ⟨h.1, h.2.1, (h.2.2.2.1 0 (by decide)).1, ?_, ?_, ?_⟩
  · exact ((h.2.2.2.1 0 (by decide)).2).trans (by decide)
  · exact ((h.2.2.2.1 1 (by decide)).2).trans (by decide)
  · exact ((h.2.2.2.1 4 (by decide)).2).trans (by decide)
